import Mathlib

/-!
# Verification of the minisource/gateway core

Shallow embedding, in Lean 4, of the parts of the gateway relevant to the
frozen claims: the reverse proxy's header filtering and target-URL
construction (`internal/proxy`), the circuit-breaker trip predicate
(`internal/middleware/circuit.go`), the token-bucket local rate limiter
(`internal/middleware/ratelimit.go`), and the bearer-token authenticator
(`internal/middleware/auth.go`).

Machine integers are modelled as `Nat`/`Int`; Go `float64` token counts and
timestamps are modelled exactly as rationals (`ℚ`, seconds); Go code that can
panic (integer division by zero) is modelled with `Option`.
-/

namespace Gateway

/-! ## Header canonicalization (Go net/http CanonicalHeaderKey) -/

/-- Punctuation of the RFC 7230 token set (Go httpguts/httplex token table).
The apostrophe (39) and backtick (96) members are spelled via `Char.ofNat`. -/
def tokenPunct : List Char :=
  ['!', '#', '$', '%', '&', '*', '+', '-', '.', '^', '_', '|', '~',
   Char.ofNat 39, Char.ofNat 96]

/-- A byte allowed in an HTTP header field name: ASCII letters, digits, and
the RFC 7230 token punctuation. -/
def isTokenChar (c : Char) : Bool :=
  (c.isAlpha && c.val < 128) || c.isDigit || tokenPunct.contains c

/-- Character-level loop of Go textproto canonicalMIMEHeaderKey: uppercase at
the start and after each hyphen, lowercase elsewhere. -/
def canonChars : Bool → List Char → List Char
  | _, [] => []
  | upper, c :: cs =>
      (if upper then c.toUpper else c.toLower) :: canonChars (c = '-') cs

/-- Go `http.CanonicalHeaderKey`: if every byte is a valid token byte, the
key is canonicalized (first letter and letters after `-` uppercased, the rest
lowercased); otherwise the key is returned unchanged. -/
def canonicalHeaderKey (s : String) : String :=
  if s.data.all isTokenChar then String.mk (canonChars true s.data) else s

/-- The hop-by-hop header set of `isHopByHopHeader` in `internal/proxy`
(note the canonical spelling `Te` of `TE`). -/
def hopByHopList : List String :=
  ["Connection", "Keep-Alive", "Proxy-Authenticate", "Proxy-Authorization",
   "Te", "Trailers", "Transfer-Encoding", "Upgrade"]

/-- `isHopByHopHeader` from `internal/proxy`: membership of the canonicalized
key in the hop-by-hop map. -/
def isHopByHopHeader (header : String) : Bool :=
  hopByHopList.contains (canonicalHeaderKey header)

/-! ## Reverse proxy request/response construction (ServiceProxy.Forward) -/

/-- A header multimap is modelled as an association list of key/value pairs. -/
abbrev Headers := List (String × String)

/-- fasthttp `Header.Set`: replace any entry with the same key, append the
new pair. -/
def setHeader (hs : Headers) (k v : String) : Headers :=
  hs.filter (fun kv => kv.1 ≠ k) ++ [(k, v)]

/-- The header-copy loop of `ServiceProxy.Forward`: every client header whose
key is not hop-by-hop is copied onto the upstream request. -/
def copyReqHeaders (clientHeaders : Headers) : Headers :=
  clientHeaders.filter (fun kv => !(isHopByHopHeader kv.1))

/-- The upstream request headers built by `ServiceProxy.Forward`: the
filtered client headers followed by the five forwarding headers set with
`Header.Set`. -/
def upstreamReqHeaders (clientHeaders : Headers)
    (ip host proto reqID : String) : Headers :=
  let h0 := copyReqHeaders clientHeaders
  let h1 := setHeader h0 "X-Forwarded-For" ip
  let h2 := setHeader h1 "X-Forwarded-Host" host
  let h3 := setHeader h2 "X-Forwarded-Proto" proto
  let h4 := setHeader h3 "X-Real-IP" ip
  setHeader h4 "X-Request-ID" reqID

/-- The response-header copy loop of `ServiceProxy.Forward`: every upstream
response header whose key is not hop-by-hop is written onto the client
response. -/
def copyRespHeaders (upstreamHeaders : Headers) : Headers :=
  upstreamHeaders.filter (fun kv => !(isHopByHopHeader kv.1))

/-- Go `strings.HasPrefix`, over the character lists of the strings. -/
def strHasPfx (p s : String) : Bool :=
  p.data.isPrefixOf s.data

/-- Go `strings.TrimPrefix`: drop `p` from the front of `s` when `p` is a
prefix of `s`, else return `s` unchanged. -/
def trimPfx (s p : String) : String :=
  if strHasPfx p s then String.mk (s.data.drop p.data.length) else s

/-- Target-URL construction of `ServiceProxy.Forward` (lines 91-104): strip
the prefix when non-empty (an empty result becomes "/"), then append the
query string after "?" when it is non-empty. -/
def buildTargetURL (baseURL path stripPfx queryString : String) : String :=
  let p :=
    if stripPfx ≠ "" then
      let p' := trimPfx path stripPfx
      if p' = "" then "/" else p'
    else path
  baseURL ++ p ++ (if queryString ≠ "" then "?" ++ queryString else "")

/-- Written from the claim's words, not the source: the service's base URL
concatenated with the request path — with the route's prefix removed when
strip is set and the empty result replaced by "/" — followed by "?" and the
query string exactly when the query string is non-empty. -/
def claimTargetURL (baseURL reqPath routePath : String) (strip : Bool)
    (queryString : String) : String :=
  let stripped :=
    if strip then
      let p := trimPfx reqPath routePath
      if p = "" then "/" else p
    else reqPath
  baseURL ++ stripped ++ (if queryString ≠ "" then "?" ++ queryString else "")

/-- Registry entry (`ServiceClient`): base URL and mutable health flag. -/
structure ServiceClient where
  name : String
  url : String
  healthy : Bool
  deriving DecidableEq, Repr

/-- An upstream response as seen through fasthttp. -/
structure UpstreamResponse where
  statusCode : ℕ
  headers : Headers
  body : String
  deriving DecidableEq, Repr

/-- Body written on the client response by `ServiceProxy.Forward`. -/
inductive RespBody where
  /-- `fiber.Map` with a single `error` field. -/
  | jsonError (error : String)
  /-- `fiber.Map` with `error` and `details` fields. -/
  | jsonErrorDetails (error details : String)
  /-- The upstream body copied verbatim. -/
  | raw (b : String)
  deriving DecidableEq, Repr

/-- The upstream request `ServiceProxy.Forward` sends. -/
structure UpstreamRequest where
  url : String
  method : String
  headers : Headers
  body : String
  deriving DecidableEq, Repr

/-- The observable outcome of `ServiceProxy.Forward`. -/
structure ForwardResult where
  status : ℕ
  body : RespBody
  /-- `some req` when an upstream request was issued. -/
  sentRequest : Option UpstreamRequest
  /-- Headers written onto the client response by the copy loop. -/
  respHeadersSet : Headers
  deriving DecidableEq, Repr

/-- `ServiceProxy.Forward`: registry lookup, health gate, upstream request
construction, transport call (its result passed in as `transport`), and
response copy. Status codes 502/503 are fiber's StatusBadGateway and
StatusServiceUnavailable. -/
def Forward (registry : String → Option ServiceClient)
    (serviceName stripPfx : String)
    (path queryString method reqBody : String)
    (clientHeaders : Headers) (ip host proto reqID : String)
    (transport : UpstreamRequest → Except String UpstreamResponse) :
    ForwardResult :=
  match registry serviceName with
  | none =>
      ⟨502, .jsonError ("service " ++ serviceName ++ " not found"), none, []⟩
  | some svc =>
      if ¬ svc.healthy then
        ⟨503, .jsonError ("service " ++ serviceName ++ " is unavailable"),
          none, []⟩
      else
        let req : UpstreamRequest :=
          ⟨buildTargetURL svc.url path stripPfx queryString, method,
            upstreamReqHeaders clientHeaders ip host proto reqID, reqBody⟩
        match transport req with
        | .error e =>
            ⟨502, .jsonErrorDetails "upstream request failed" e, some req, []⟩
        | .ok resp =>
            ⟨resp.statusCode, .raw resp.body, some req,
              copyRespHeaders resp.headers⟩

/-! ## Local token-bucket rate limiter (internal/middleware/ratelimit.go) -/

/-- `rateBucket`: a float token count and the time of the last check.
`float64` values are modelled exactly in `ℚ`; times are seconds. -/
structure RateBucket where
  tokens : ℚ
  lastCheck : ℚ
  deriving DecidableEq, Repr

/-- Go `int(x)` conversion from `float64`: truncation toward zero. -/
def goTrunc (q : ℚ) : ℤ :=
  if q < 0 then -⌊-q⌋ else ⌊q⌋

/-- The `(allowed, remaining, resetTime, updated bucket)` result of
`LocalLimiter.allow`. -/
structure AllowOut where
  allowed : Bool
  remaining : ℤ
  reset : ℤ
  bucket : RateBucket
  deriving DecidableEq, Repr

/-- Nanoseconds in `time.Second`. -/
def nanosPerSec : ℕ := 1000000000

/-- `LocalLimiter.allow` for one key's bucket (`bucket? = none` when the key
is not in the map). `time.Time.Unix()` is `Int.floor` of the time in seconds;
`time.Second / time.Duration(rps)` is integer nanosecond division, which in Go
panics when `rps = 0` — that panic is modelled by the `none` result. -/
def localAllow (rps burst : ℕ) (now : ℚ) (bucket? : Option RateBucket) :
    Option AllowOut :=
  match bucket? with
  | none =>
      some ⟨true, (burst : ℤ) - 1, ⌊now + 1⌋, ⟨(burst : ℚ) - 1, now⟩⟩
  | some bucket =>
      let elapsed := now - bucket.lastCheck
      let tokens := min (burst : ℚ) (bucket.tokens + elapsed * (rps : ℚ))
      if 1 ≤ tokens then
        some ⟨true, goTrunc (tokens - 1), ⌊now + 1⌋, ⟨tokens - 1, now⟩⟩
      else if rps = 0 then
        none
      else
        some ⟨false, 0,
          ⌊now + ((nanosPerSec / rps : ℕ) : ℚ) / (nanosPerSec : ℚ)⌋,
          ⟨tokens, now⟩⟩

/-- The three rate-limit response headers, as set by
`RateLimiter.Middleware`. -/
structure RLHeaders where
  limit : ℕ
  remaining : ℤ
  reset : ℤ
  deriving DecidableEq, Repr

/-- How `RateLimiter.Middleware` terminates once the headers are set. -/
inductive RLOutcome where
  /-- `c.Next()`: the request proceeds down the pipeline. -/
  | next
  /-- 429 with JSON kind `rate_limit_exceeded` and a `retry_after` field. -/
  | deny (status : ℕ) (error : String) (retryAfter : ℤ)
  deriving DecidableEq, Repr

/-- `RateLimiter.Middleware` over the local limiter, for one key: runs
`allow`, sets the three `X-RateLimit-*` headers on every response, and denies
with 429 when not allowed. `none` propagates the modelled panic. -/
def rateLimitMiddleware (rps burst : ℕ) (now : ℚ)
    (bucket? : Option RateBucket) :
    Option (RLHeaders × RLOutcome × RateBucket) :=
  (localAllow rps burst now bucket?).map fun out =>
    (⟨rps, out.remaining, out.reset⟩,
     if out.allowed then RLOutcome.next
     else RLOutcome.deny 429 "rate_limit_exceeded" (out.reset - ⌊now⌋),
     out.bucket)

/-- A sequence of `LocalLimiter.allow` calls for one key, at the given call
instants, starting from bucket state `bucket?`; `none` when some call
panics. -/
def runAllow (rps burst : ℕ) (bucket? : Option RateBucket) :
    List ℚ → Option (Option RateBucket)
  | [] => some bucket?
  | t :: ts =>
      match localAllow rps burst t bucket? with
      | none => none
      | some out => runAllow rps burst (some out.bucket) ts

/-- Written from the claim's words, not the source: at instant `t`, at least
one more token is available in bucket `bk` that refills at `rps` tokens per
second up to `burst`. -/
def tokenAvailableAt (bk : RateBucket) (rps burst : ℕ) (t : ℚ) : Prop :=
  1 ≤ min (burst : ℚ) (bk.tokens + (t - bk.lastCheck) * (rps : ℚ))

/-! ## Circuit breaker (internal/middleware/circuit.go) -/

/-- `ReadyToTrip` installed by `CircuitBreakerManager.GetBreaker`:
`counts.Requests >= uint32(cfg.FailureThreshold) && failureRatio >= 0.5`,
where `failureRatio = float64(TotalFailures) / float64(Requests)`. The
`uint32` counters are modelled as `ℕ` and the exact `float64` quotient as a
rational (exact for all representable counter values). -/
def readyToTrip (failureThreshold requests totalFailures : ℕ) : Bool :=
  decide (failureThreshold ≤ requests) &&
    decide ((1 : ℚ) / 2 ≤ (totalFailures : ℚ) / (requests : ℚ))

/-- Failures among a list of observations (`true` = failure). -/
def failuresIn (obs : List Bool) : ℕ :=
  obs.count true

/-- Whether `ReadyToTrip` holds just after observation `i` of `obs` (counts
reset at the start of the sequence): `Requests = i + 1`,
`TotalFailures = failuresIn (obs.take (i+1))`. -/
def tripsAt (N : ℕ) (obs : List Bool) (i : ℕ) : Bool :=
  readyToTrip N (i + 1) (failuresIn (obs.take (i + 1)))

/-- First index `≥ s` among the next `n` indices where `p` holds. -/
def firstIdxFrom (p : ℕ → Bool) : ℕ → ℕ → Option ℕ
  | _, 0 => none
  | s, n + 1 => if p s then some s else firstIdxFrom p (s + 1) n

/-- Modelled from the spec: the gobreaker library (an external collaborator,
not under src/) evaluates the installed `ReadyToTrip` on the updated counts
after each observation while Closed, and transitions Closed→Open at the first
observation where it returns true ("the breaker transitions Closed→Open at
the first observation where `requests ≥ N ∧ failures/requests ≥ 0.5`, not
before"). -/
def tripIndex (N : ℕ) (obs : List Bool) : Option ℕ :=
  firstIdxFrom (tripsAt N obs) 0 obs.length

/-- A `config.Route` record (fields the claims use). -/
structure Route where
  path : String
  service : String
  methods : List String
  public : Bool
  stripPfxFlag : Bool
  circuitBreaker : Bool
  deriving DecidableEq, Repr

/-- Result of `gobreaker.CircuitBreaker.Execute` around the wrapped
`c.Next()` call, as observed by the middleware. -/
inductive ExecOutcome where
  /-- The wrapped call ran and returned no error (downstream status < 500). -/
  | ok (status : ℕ)
  /-- `gobreaker.ErrOpenState`: rejected because the breaker is Open. -/
  | openState
  /-- `gobreaker.ErrTooManyRequests`: rejected because half-open capacity is
  exceeded. -/
  | tooManyRequests
  /-- Any other error (e.g. the wrapped call ran and reported status ≥ 500);
  the downstream response was already written. -/
  | otherError (status : ℕ)
  deriving DecidableEq, Repr

/-- Observable behaviour of the circuit-breaker middleware. -/
inductive CBResponse where
  /-- The breaker was not applied: the middleware just calls `c.Next()`. -/
  | passthrough
  /-- The wrapped call was rejected by the breaker; the middleware writes
  `status` with JSON error kind `error`. -/
  | rejected (status : ℕ) (error : String)
  /-- The wrapped call ran; the already-written downstream response is
  returned unchanged. -/
  | underlying
  deriving DecidableEq, Repr

/-- Rejection mapping at the end of `CircuitBreakerManager.Middleware`. -/
def execToResponse : ExecOutcome → CBResponse
  | .openState => .rejected 503 "service_unavailable"
  | .tooManyRequests => .rejected 503 "too_many_requests"
  | .ok _ => .underlying
  | .otherError _ => .underlying

/-- `CircuitBreakerManager.Middleware`: skip when disabled, when the
`service` local is unset, empty, or `"gateway"`, or when the route local is
present with `CircuitBreaker = false`; otherwise wrap the downstream call in
the breaker and map its outcome. -/
def circuitMiddleware (enabled : Bool) (serviceLocal : Option String)
    (routeLocal : Option Route) (exec : ExecOutcome) : CBResponse :=
  if !enabled then .passthrough
  else
    match serviceLocal with
    | none => .passthrough
    | some s =>
        if s = "" || s = "gateway" then .passthrough
        else
          match routeLocal with
          | some r =>
              if !r.circuitBreaker then .passthrough else execToResponse exec
          | none => execToResponse exec

/-- Whether `circuitMiddleware` wraps the downstream call in the breaker
(i.e. does not skip): read off the guards of the middleware. -/
def cbWraps (enabled : Bool) (serviceLocal : Option String)
    (routeLocal : Option Route) : Bool :=
  enabled &&
    (match serviceLocal with
     | none => false
     | some s =>
         !(s = "" || s = "gateway") &&
           (match routeLocal with
            | some r => r.circuitBreaker
            | none => true))

/-! ## Authenticator (internal/middleware/auth.go) -/

/-- JWT claims payload (`Claims`), with `RegisteredClaims.ExpiresAt` in
epoch seconds (`none` when absent). -/
structure ClaimsRec where
  userID : String
  tenantID : String
  email : String
  roles : List String
  expiresAt : Option ℚ
  deriving DecidableEq, Repr

/-- What a bearer token string decodes to: whether its HMAC signature
verifies against the configured secret (with an HMAC signing method), and
its claims payload. -/
structure Token where
  sigValid : Bool
  claims : ClaimsRec
  deriving DecidableEq, Repr

/-- Modelled from the spec: `jwt.ParseWithClaims` (external library, not
under src/) — "Validate signature with the configured symmetric secret using
HMAC; reject unexpected signing algorithms → 401. Verify `expires_at > now`
→ else 401." Parsing succeeds iff the signature is valid and the token is
not expired at `now`. -/
def jwtParse (decode : String → Token) (now : ℚ) (s : String) :
    Option ClaimsRec :=
  let t := decode s
  if t.sigValid &&
      (match t.claims.expiresAt with
       | none => true
       | some e => decide (now < e)) then
    some t.claims
  else none

/-- `validateToken` from auth.go: parse (returning 401 on any parse error),
then reject when `claims.ExpiresAt != nil` and `ExpiresAt.Time.Before(now)`
(strict). -/
def validateToken (decode : String → Token) (now : ℚ) (s : String) :
    Option ClaimsRec :=
  match jwtParse decode now s with
  | none => none
  | some claims =>
      match claims.expiresAt with
      | some e => if e < now then none else some claims
      | none => some claims

/-- Go `strings.EqualFold`, modelled as ASCII case folding. -/
def eqFold (a b : String) : Bool :=
  a.data.map Char.toLower = b.data.map Char.toLower

/-- Go `strings.Join(roles, ",")`. -/
def joinComma : List String → String
  | [] => ""
  | [a] => a
  | a :: rest => a ++ "," ++ joinComma rest

/-- The `AuthConfig` fields the middleware branches on. -/
structure AuthCfgModel where
  skipPfxs : List String
  publicPaths : List (String × List String)
  deriving Repr

/-- What the `Auth` middleware does with a request. -/
inductive AuthOutcome where
  /-- `c.Next()` without authentication (skip prefix or public route). -/
  | pass
  /-- Authenticated: claims placed on the context, `X-User-*` headers set on
  the upstream request headers. -/
  | passAuthed (claims : ClaimsRec) (upstreamHeaders : Headers)
  /-- 401 with JSON error kind `unauthorized`. -/
  | unauthorized (message : String)
  deriving DecidableEq, Repr

/-- `Auth` from auth.go: skip-prefix bypass, `isPublic` local bypass,
configured public-path bypass, then the bearer-token checks. `baseHeaders`
are the request headers before the middleware touches them. -/
def authMiddleware (cfg : AuthCfgModel) (decode : String → Token) (now : ℚ)
    (path method : String) (isPublicLocal : Option Bool)
    (authHeaderVal : String) (baseHeaders : Headers) : AuthOutcome :=
  if cfg.skipPfxs.any (fun p => strHasPfx p path) then .pass
  else if isPublicLocal.getD false then .pass
  else if (match cfg.publicPaths.lookup path with
           | some methods => methods.any (fun m => eqFold m method)
           | none => false) then .pass
  else if authHeaderVal = "" then .unauthorized "Missing authorization header"
  else
    let tokenString := trimPfx authHeaderVal "Bearer "
    if tokenString = authHeaderVal then
      .unauthorized "Invalid authorization format"
    else
      match validateToken decode now tokenString with
      | none => .unauthorized "Invalid token"
      | some claims =>
          let h1 := setHeader baseHeaders "X-User-ID" claims.userID
          let h2 := setHeader h1 "X-Tenant-ID" claims.tenantID
          let h3 := setHeader h2 "X-User-Email" claims.email
          let h4 :=
            if claims.roles.length > 0 then
              setHeader h3 "X-User-Roles" (joinComma claims.roles)
            else h3
          .passAuthed claims h4

/-! ## Theorems -/

lemma mem_setHeader {hs : Headers} {k v : String} {kv : String × String}
    (h : kv ∈ setHeader hs k v) : kv ∈ hs ∨ kv.1 = k := by
  unfold setHeader at h
  rcases List.mem_append.mp h with h | h
  · exact Or.inl (List.mem_filter.mp h).1
  · right
    rw [List.mem_singleton.mp h]

lemma copyReqHeaders_noHop {clientHeaders : Headers} {kv : String × String}
    (h : kv ∈ copyReqHeaders clientHeaders) : isHopByHopHeader kv.1 = false := by
  have := (List.mem_filter.mp h).2
  simpa using this

lemma copyRespHeaders_noHop {upstreamHeaders : Headers} {kv : String × String}
    (h : kv ∈ copyRespHeaders upstreamHeaders) :
    isHopByHopHeader kv.1 = false := by
  have := (List.mem_filter.mp h).2
  simpa using this

lemma upstreamReqHeaders_noHop {clientHeaders : Headers}
    {ip host proto reqID : String} {kv : String × String}
    (h : kv ∈ upstreamReqHeaders clientHeaders ip host proto reqID) :
    isHopByHopHeader kv.1 = false := by
  unfold upstreamReqHeaders at h
  rcases mem_setHeader h with h | e
  · rcases mem_setHeader h with h | e
    · rcases mem_setHeader h with h | e
      · rcases mem_setHeader h with h | e
        · rcases mem_setHeader h with h | e
          · exact copyReqHeaders_noHop h
          · rw [e]; decide
        · rw [e]; decide
      · rw [e]; decide
    · rw [e]; decide
  · rw [e]; decide

/-- C1: for every client request forwarded by the reverse proxy, no
hop-by-hop header (Connection, Keep-Alive, Proxy-Authenticate,
Proxy-Authorization, TE, Trailers, Transfer-Encoding, Upgrade) present on
the client request appears on the upstream request, and no hop-by-hop header
present on the upstream response appears among the headers the proxy writes
on the client response. -/
theorem C1_hop_by_hop_isolation
    (clientHeaders : Headers) (ip host proto reqID k : String)
    (hk : isHopByHopHeader k = true) :
    (∀ v, (k, v) ∉ upstreamReqHeaders clientHeaders ip host proto reqID) ∧
    (∀ (upstreamHeaders : Headers) (v : String),
      (k, v) ∉ copyRespHeaders upstreamHeaders) := by
  constructor
  · intro v hmem
    have := upstreamReqHeaders_noHop hmem
    simp only at this
    rw [hk] at this
    exact Bool.true_eq_false.mp this
  · intro uh v hmem
    have := copyRespHeaders_noHop hmem
    simp only at this
    rw [hk] at this
    exact Bool.true_eq_false.mp this

/-- C1 witness: a concrete client `Connection` header does not reach the
upstream request, and a concrete upstream `Connection` header is not copied
to the client response. -/
theorem C1_hop_by_hop_isolation_witness :
    isHopByHopHeader "Connection" = true ∧
    ((∀ v, ("Connection", v) ∉
        upstreamReqHeaders [("Connection", "keep-alive"), ("Accept", "*")]
          "1.2.3.4" "gw.example.com" "http" "rid-1") ∧
     (∀ (upstreamHeaders : Headers) (v : String),
        ("Connection", v) ∉ copyRespHeaders upstreamHeaders)) :=
  ⟨by decide,
   C1_hop_by_hop_isolation [("Connection", "keep-alive"), ("Accept", "*")]
     "1.2.3.4" "gw.example.com" "http" "rid-1" "Connection" (by decide)⟩

lemma trimPfx_empty (s : String) : trimPfx s "" = s := by
  have hp : strHasPfx "" s = true := by
    simp [strHasPfx, List.isPrefixOf]
  simp only [trimPfx, hp, if_true]
  rfl

/-- C6: the upstream target URL equals the service's base URL concatenated
with the request path (with the route's prefix removed when strip_prefix is
set, and the empty result replaced by "/"), followed by "?" and the query
string exactly when the query string is non-empty. The middleware passes the
route's path as the strip argument when the route's strip flag is set, and
"" otherwise. -/
theorem C6_target_url (baseURL reqPath routePath queryString : String)
    (strip : Bool) (h : reqPath ≠ "") :
    buildTargetURL baseURL reqPath (cond strip routePath "") queryString =
      claimTargetURL baseURL reqPath routePath strip queryString := by
  cases strip with
  | false => simp [buildTargetURL, claimTargetURL]
  | true =>
      by_cases hr : routePath = ""
      · subst hr
        simp [buildTargetURL, claimTargetURL, trimPfx_empty, h]
      · simp [buildTargetURL, claimTargetURL, hr]

/-- C6 witness: scenario S5 — on a strip-prefix route with path
`/api/v1/auth`, the request `GET /api/v1/auth/me?x=1` produces the upstream
URL `<base>/me?x=1`. -/
theorem C6_target_url_witness :
    buildTargetURL "http://auth" "/api/v1/auth/me" (cond true "/api/v1/auth" "")
        "x=1" =
      claimTargetURL "http://auth" "/api/v1/auth/me" "/api/v1/auth" true "x=1" ∧
    claimTargetURL "http://auth" "/api/v1/auth/me" "/api/v1/auth" true "x=1" =
      "http://auth/me?x=1" :=
  ⟨C6_target_url "http://auth" "/api/v1/auth/me" "/api/v1/auth" "x=1" true
      (by decide),
   by decide⟩

/-- C7: the proxy returns 502 when the named service is not in the registry,
503 when the service is marked unhealthy, 502 with a JSON body carrying
`error` and `details` when the upstream transport call fails, and otherwise
preserves the upstream status code on the response. -/
theorem C7_proxy_error_mapping
    (registry : String → Option ServiceClient)
    (serviceName stripArg path queryString method reqBody : String)
    (clientHeaders : Headers) (ip host proto reqID : String)
    (transport : UpstreamRequest → Except String UpstreamResponse) :
    (registry serviceName = none →
      Forward registry serviceName stripArg path queryString method reqBody
          clientHeaders ip host proto reqID transport =
        ⟨502, .jsonError ("service " ++ serviceName ++ " not found"),
          none, []⟩) ∧
    (∀ svc, registry serviceName = some svc → svc.healthy = false →
      Forward registry serviceName stripArg path queryString method reqBody
          clientHeaders ip host proto reqID transport =
        ⟨503, .jsonError ("service " ++ serviceName ++ " is unavailable"),
          none, []⟩) ∧
    (∀ svc e, registry serviceName = some svc → svc.healthy = true →
      transport ⟨buildTargetURL svc.url path stripArg queryString, method,
          upstreamReqHeaders clientHeaders ip host proto reqID, reqBody⟩ =
        .error e →
      (Forward registry serviceName stripArg path queryString method reqBody
          clientHeaders ip host proto reqID transport).status = 502 ∧
      (Forward registry serviceName stripArg path queryString method reqBody
          clientHeaders ip host proto reqID transport).body =
        .jsonErrorDetails "upstream request failed" e) ∧
    (∀ svc resp, registry serviceName = some svc → svc.healthy = true →
      transport ⟨buildTargetURL svc.url path stripArg queryString, method,
          upstreamReqHeaders clientHeaders ip host proto reqID, reqBody⟩ =
        .ok resp →
      (Forward registry serviceName stripArg path queryString method reqBody
          clientHeaders ip host proto reqID transport).status =
        resp.statusCode) := by
  refine ⟨?_, ?_, ?_, ?_⟩
  · intro hreg
    simp [Forward, hreg]
  · intro svc hreg hun
    simp [Forward, hreg, hun]
  · intro svc e hreg hh htr
    simp [Forward, hreg, hh, htr]
  · intro svc resp hreg hh htr
    simp [Forward, hreg, hh, htr]

/-- C7 witness: with a one-service registry, asking for an unknown service
name yields the 502 not-found response. -/
theorem C7_proxy_error_mapping_witness :
    Forward
        (fun n => if n = "auth" then some ⟨"auth", "http://auth", true⟩
          else none)
        "notifier" "" "/x" "" "GET" "" [] "ip" "h" "http" "rid"
        (fun _ => .error "unused") =
      ⟨502, .jsonError ("service " ++ "notifier" ++ " not found"),
        none, []⟩ :=
  (C7_proxy_error_mapping
      (fun n => if n = "auth" then some ⟨"auth", "http://auth", true⟩
        else none)
      "notifier" "" "/x" "" "GET" "" [] "ip" "h" "http" "rid"
      (fun _ => .error "unused")).1 (by decide)

lemma firstIdxFrom_eq_some (p : ℕ → Bool) :
    ∀ (n s i : ℕ), firstIdxFrom p s n = some i ↔
      (s ≤ i ∧ i < s + n ∧ p i = true ∧
        ∀ j, s ≤ j → j < i → p j = false) := by
  intro n
  induction n with
  | zero =>
      intro s i
      simp only [firstIdxFrom]
      constructor
      · intro h; cases h
      · rintro ⟨h1, h2, -⟩; omega
  | succ n ih =>
      intro s i
      simp only [firstIdxFrom]
      by_cases hps : p s = true
      · simp only [hps, if_true, Option.some.injEq]
        constructor
        · rintro rfl
          exact ⟨le_refl s, by omega, hps, fun j h1 h2 => by omega⟩
        · rintro ⟨h1, -, -, h4⟩
          by_contra hne
          have : p s = false := h4 s (le_refl s) (by omega)
          rw [hps] at this
          exact Bool.true_eq_false.mp this
      · have hps' : p s = false := by
          cases h : p s
          · rfl
          · exact absurd h hps
        simp only [hps', if_false, Bool.false_eq_true]
        rw [ih (s + 1) i]
        constructor
        · rintro ⟨h1, h2, h3, h4⟩
          refine ⟨by omega, by omega, h3, fun j hj1 hj2 => ?_⟩
          rcases Nat.eq_or_lt_of_le hj1 with rfl | hlt
          · exact hps'
          · exact h4 j hlt hj2
        · rintro ⟨h1, h2, h3, h4⟩
          have hsi : s ≠ i := by
            rintro rfl
            rw [h3] at hps'
            exact Bool.true_eq_false.mp hps'
          exact ⟨by omega, by omega, h3, fun j hj1 hj2 => h4 j (by omega) hj2⟩

lemma tripsAt_iff (N : ℕ) (obs : List Bool) (i : ℕ) :
    tripsAt N obs i = true ↔
      N ≤ i + 1 ∧
        (1 : ℚ) / 2 ≤ (failuresIn (obs.take (i + 1)) : ℚ) / ((i : ℚ) + 1) := by
  unfold tripsAt readyToTrip
  rw [Bool.and_eq_true, decide_eq_true_eq, decide_eq_true_eq]
  constructor
  · rintro ⟨h1, h2⟩
    refine ⟨h1, ?_⟩
    convert h2 using 2
    push_cast
    ring
  · rintro ⟨h1, h2⟩
    refine ⟨h1, ?_⟩
    convert h2 using 2
    push_cast
    ring

/-- C2: for a breaker with failure_threshold `N` and a sequence of
observations (`true` = failure), the breaker transitions Closed→Open exactly
at the first observation where the request count is at least `N` and the
failure ratio `failures/requests` is at least `0.5` — and at no earlier
observation does that condition hold. -/
theorem C2_breaker_trips_at_first_threshold (N : ℕ) (obs : List Bool)
    (i : ℕ) :
    tripIndex N obs = some i ↔
      i < obs.length ∧
      (N ≤ i + 1 ∧
        (1 : ℚ) / 2 ≤ (failuresIn (obs.take (i + 1)) : ℚ) / ((i : ℚ) + 1)) ∧
      ∀ j, j < i →
        ¬ (N ≤ j + 1 ∧
          (1 : ℚ) / 2 ≤ (failuresIn (obs.take (j + 1)) : ℚ) / ((j : ℚ) + 1)) := by
  unfold tripIndex
  rw [firstIdxFrom_eq_some]
  constructor
  · rintro ⟨-, h2, h3, h4⟩
    refine ⟨by omega, (tripsAt_iff N obs i).mp h3, fun j hj hc => ?_⟩
    have := h4 j (Nat.zero_le j) hj
    rw [(tripsAt_iff N obs j).mpr hc] at this
    exact Bool.true_eq_false.mp this
  · rintro ⟨h1, h2, h3⟩
    refine ⟨Nat.zero_le i, by omega, (tripsAt_iff N obs i).mpr h2,
      fun j _ hj => ?_⟩
    cases h : tripsAt N obs j
    · rfl
    · exact absurd ((tripsAt_iff N obs j).mp h) (h3 j hj)

/-- C2 witness: with failure_threshold 2, the sequence
success-success-failure-failure trips at the fourth observation
(requests = 4, failures = 2, ratio 1/2 ≥ 0.5) and not before. -/
theorem C2_breaker_trips_witness :
    tripIndex 2 [false, false, true, true] = some 3 :=
  (C2_breaker_trips_at_first_threshold 2 [false, false, true, true] 3).mpr
    (by
      refine ⟨by norm_num, ⟨by norm_num, ?_⟩, ?_⟩
      · have hf : failuresIn ([false, false, true, true].take 4) = 2 := by
          decide
        rw [hf]
        norm_num
      · intro j hj
        interval_cases j
        · rintro ⟨hN, -⟩
          omega
        · have hf : failuresIn ([false, false, true, true].take 2) = 0 := by
            decide
          rw [hf]
          rintro ⟨-, hr⟩
          norm_num at hr
        · have hf : failuresIn ([false, false, true, true].take 3) = 1 := by
            decide
          rw [hf]
          rintro ⟨-, hr⟩
          norm_num at hr)

lemma circuitMiddleware_eq_ite (enabled : Bool) (serviceLocal : Option String)
    (routeLocal : Option Route) (exec : ExecOutcome) :
    circuitMiddleware enabled serviceLocal routeLocal exec =
      if cbWraps enabled serviceLocal routeLocal then execToResponse exec
      else .passthrough := by
  cases enabled with
  | false => simp [circuitMiddleware, cbWraps]
  | true =>
      cases serviceLocal with
      | none => simp [circuitMiddleware, cbWraps]
      | some s =>
          by_cases hs : s = "" || s = "gateway"
          · simp [circuitMiddleware, cbWraps, hs]
          · cases routeLocal with
            | none => simp [circuitMiddleware, cbWraps, hs]
            | some r =>
                cases hcb : r.circuitBreaker with
                | false => simp [circuitMiddleware, cbWraps, hs, hcb]
                | true => simp [circuitMiddleware, cbWraps, hs, hcb]

/-- C5: with a resolved route on the context, the circuit-breaker middleware
wraps the downstream call iff breaking is enabled, the context's service
name is set, non-empty and not "gateway", and the route has
circuit_breaker = true; a wrapped call rejected with the breaker Open yields
503 with error kind service_unavailable, and one rejected for exceeded
half-open capacity yields 503 with error kind too_many_requests. -/
theorem C5_circuit_gating (enabled : Bool) (serviceLocal : Option String)
    (r : Route) (exec : ExecOutcome) :
    (cbWraps enabled serviceLocal (some r) = true ↔
      enabled = true ∧
      (∃ s, serviceLocal = some s ∧ s ≠ "" ∧ s ≠ "gateway") ∧
      r.circuitBreaker = true) ∧
    (circuitMiddleware enabled serviceLocal (some r) exec =
      if cbWraps enabled serviceLocal (some r) then execToResponse exec
      else .passthrough) ∧
    (cbWraps enabled serviceLocal (some r) = true →
      exec = .openState →
      circuitMiddleware enabled serviceLocal (some r) exec =
        .rejected 503 "service_unavailable") ∧
    (cbWraps enabled serviceLocal (some r) = true →
      exec = .tooManyRequests →
      circuitMiddleware enabled serviceLocal (some r) exec =
        .rejected 503 "too_many_requests") := by
  have hiff : cbWraps enabled serviceLocal (some r) = true ↔
      enabled = true ∧
      (∃ s, serviceLocal = some s ∧ s ≠ "" ∧ s ≠ "gateway") ∧
      r.circuitBreaker = true := by
    cases serviceLocal with
    | none => simp [cbWraps]
    | some s =>
        simp only [cbWraps, Bool.and_eq_true, Bool.not_eq_true',
          Bool.or_eq_false_iff, decide_eq_false_iff_not,
          Option.some.injEq]
        constructor
        · rintro ⟨he, ⟨hs1, hs2⟩, hcb⟩
          exact ⟨he, ⟨s, rfl, hs1, hs2⟩, hcb⟩
        · rintro ⟨he, ⟨s', hs', h1, h2⟩, hcb⟩
          cases hs'
          exact ⟨he, ⟨h1, h2⟩, hcb⟩
  refine ⟨hiff, circuitMiddleware_eq_ite enabled serviceLocal (some r) exec,
    ?_, ?_⟩
  · intro hw hex
    subst hex
    rw [circuitMiddleware_eq_ite, hw]
    rfl
  · intro hw hex
    subst hex
    rw [circuitMiddleware_eq_ite, hw]
    rfl

/-- C5 witness: with breaking enabled, service "notifier", and a route with
circuit_breaker = true, the middleware wraps; an Open-state rejection maps
to 503 service_unavailable. -/
theorem C5_circuit_gating_witness :
    cbWraps true (some "notifier")
        (some ⟨"/api/v1/notifications", "notifier", ["POST"], false, false,
          true⟩) = true ∧
    circuitMiddleware true (some "notifier")
        (some ⟨"/api/v1/notifications", "notifier", ["POST"], false, false,
          true⟩) .openState =
      .rejected 503 "service_unavailable" :=
  ⟨by decide,
   (C5_circuit_gating true (some "notifier")
       ⟨"/api/v1/notifications", "notifier", ["POST"], false, false, true⟩
       .openState).2.2.1 (by decide) rfl⟩

lemma localAllow_none_eq (rps burst : ℕ) (now : ℚ) :
    localAllow rps burst now none =
      some ⟨true, (burst : ℤ) - 1, ⌊now + 1⌋, ⟨(burst : ℚ) - 1, now⟩⟩ := rfl

lemma runAllow_nil (rps burst : ℕ) (b : Option RateBucket) :
    runAllow rps burst b [] = some b := rfl

lemma runAllow_cons_some {rps burst : ℕ} {b : Option RateBucket} {t : ℚ}
    {ts : List ℚ} {out : AllowOut}
    (h : localAllow rps burst t b = some out) :
    runAllow rps burst b (t :: ts) =
      runAllow rps burst (some out.bucket) ts := by
  rw [runAllow, h]

lemma localAllow_some_inv {rps burst : ℕ} {now : ℚ} {bk : RateBucket}
    {out : AllowOut}
    (h0 : 0 ≤ bk.tokens) (h1 : bk.tokens ≤ (burst : ℚ))
    (ht : bk.lastCheck ≤ now)
    (hout : localAllow rps burst now (some bk) = some out) :
    0 ≤ out.bucket.tokens ∧ out.bucket.tokens ≤ (burst : ℚ) ∧
      out.bucket.lastCheck = now := by
  simp only [localAllow] at hout
  set tk := min ((burst : ℚ)) (bk.tokens + (now - bk.lastCheck) * (rps : ℚ))
    with htk
  have htk0 : 0 ≤ tk := by
    apply le_min (Nat.cast_nonneg burst)
    have : (0 : ℚ) ≤ (now - bk.lastCheck) * (rps : ℚ) :=
      mul_nonneg (by linarith) (Nat.cast_nonneg rps)
    linarith
  have htkb : tk ≤ (burst : ℚ) := min_le_left _ _
  by_cases hge : (1 : ℚ) ≤ tk
  · rw [if_pos hge, Option.some.injEq] at hout
    subst hout
    exact ⟨show (0 : ℚ) ≤ tk - 1 by linarith,
      show tk - 1 ≤ (burst : ℚ) by linarith, rfl⟩
  · by_cases hz : rps = 0
    · rw [if_neg hge, if_pos hz] at hout
      exact Option.noConfusion hout
    · rw [if_neg hge, if_neg hz, Option.some.injEq] at hout
      subst hout
      exact ⟨htk0, htkb, rfl⟩

lemma runAllow_inv {rps burst : ℕ} (hb : 1 ≤ burst) :
    ∀ (ts : List ℚ) (start res : Option RateBucket),
      ts.Chain' (· ≤ ·) →
      (∀ bk, start = some bk →
        0 ≤ bk.tokens ∧ bk.tokens ≤ (burst : ℚ) ∧
          ∀ t, ts.head? = some t → bk.lastCheck ≤ t) →
      runAllow rps burst start ts = some res →
      ∀ bk, res = some bk → 0 ≤ bk.tokens ∧ bk.tokens ≤ (burst : ℚ) := by
  intro ts
  induction ts with
  | nil =>
      intro start res _ hstart hrun bk hres
      rw [runAllow_nil, Option.some.injEq] at hrun
      subst hrun
      subst hres
      rcases hstart bk rfl with ⟨i0, i1, -⟩
      exact ⟨i0, i1⟩
  | cons t ts ih =>
      intro start res hch hstart hrun bk hres
      cases hla : localAllow rps burst t start with
      | none => rw [runAllow, hla] at hrun; cases hrun
      | some out =>
          rw [runAllow_cons_some hla] at hrun
          rcases List.chain'_cons'.mp hch with ⟨hhd, htl⟩
          have hcast1 : (1 : ℚ) ≤ (burst : ℚ) := by exact_mod_cast hb
          have hinv : 0 ≤ out.bucket.tokens ∧
              out.bucket.tokens ≤ (burst : ℚ) ∧ out.bucket.lastCheck = t := by
            cases start with
            | none =>
                rw [localAllow_none_eq, Option.some.injEq] at hla
                subst hla
                exact ⟨show (0 : ℚ) ≤ (burst : ℚ) - 1 by linarith,
                  show (burst : ℚ) - 1 ≤ (burst : ℚ) by linarith, rfl⟩
            | some bk0 =>
                rcases hstart bk0 rfl with ⟨i0, i1, i2⟩
                exact localAllow_some_inv i0 i1 (i2 t rfl) hla
          refine ih (some out.bucket) res htl ?_ hrun bk hres
          rintro bk' hbk'
          rw [Option.some.injEq] at hbk'
          subst hbk'
          exact ⟨hinv.1, hinv.2.1, fun t' ht' => by
            rw [hinv.2.2]; exact hhd t' ht'⟩

/-- C3 (amended): for burst ≥ 1 and monotone call instants, after every
sequence of `LocalLimiter.allow` calls on one key the stored token count
lies in [0, burst]. -/
theorem C3_tokens_in_range (rps burst : ℕ) (ts : List ℚ)
    (res : Option RateBucket) (bk : RateBucket)
    (hb : 1 ≤ burst) (hts : ts.Chain' (· ≤ ·))
    (hrun : runAllow rps burst none ts = some res) (hres : res = some bk) :
    0 ≤ bk.tokens ∧ bk.tokens ≤ (burst : ℚ) :=
  runAllow_inv hb ts none res hts (fun _ h => Option.noConfusion h) hrun bk
    hres

/-- C3 counterexample: with burst = 0, the very first call creates the
bucket with a negative token count (−1), violating tokens ∈ [0, burst] as
stated for every burst. -/
theorem C3_tokens_counterexample :
    runAllow 1 0 none [0] = some (some ⟨-1, 0⟩) ∧
      ¬ (0 ≤ (RateBucket.mk (-1) 0).tokens) := by
  constructor
  · rw [runAllow_cons_some (localAllow_none_eq 1 0 0), runAllow_nil]
    norm_num
  · norm_num

/-- C3 witness: rps = 1, burst = 1, one call at t = 0; the resulting bucket
⟨0, 0⟩ satisfies 0 ≤ tokens ≤ 1. -/
theorem C3_tokens_in_range_witness :
    0 ≤ (RateBucket.mk 0 0).tokens ∧
      (RateBucket.mk 0 0).tokens ≤ ((1 : ℕ) : ℚ) :=
  C3_tokens_in_range 1 1 [0] (some ⟨0, 0⟩) ⟨0, 0⟩ (by norm_num)
    (by simp)
    (by
      rw [runAllow_cons_some (localAllow_none_eq 1 1 0), runAllow_nil]
      norm_num)
    rfl


/-- C9: the local allow operation is total when rps ≥ 1, and on the denial
branch with rps = 0 it performs the integer division `time.Second /
time.Duration(rps)` — a division by zero that panics at runtime (modelled
as `none`) instead of returning a result. -/
theorem C9_allow_total_iff_rps_positive :
    (∀ (rps burst : ℕ) (now : ℚ) (bucket? : Option RateBucket), 1 ≤ rps →
      (localAllow rps burst now bucket?).isSome = true) ∧
    (∀ (burst : ℕ) (now : ℚ) (bk : RateBucket),
      min ((burst : ℚ)) (bk.tokens + (now - bk.lastCheck) * ((0 : ℕ) : ℚ)) <
          1 →
      localAllow 0 burst now (some bk) = none) := by
  constructor
  · intro rps burst now bucket? hrps
    cases bucket? with
    | none => rw [localAllow_none_eq]; rfl
    | some bk =>
        simp only [localAllow]
        by_cases hge :
            (1 : ℚ) ≤ min ((burst : ℚ))
              (bk.tokens + (now - bk.lastCheck) * (rps : ℚ))
        · rw [if_pos hge]; rfl
        · rw [if_neg hge, if_neg (by omega : ¬ rps = 0)]; rfl
  · intro burst now bk hlt
    simp only [localAllow]
    rw [if_neg (not_le.mpr hlt)]
    simp

/-- C9 witness: with rps = 1 every call returns a result; with rps = 0 and
an empty existing bucket the call hits the denial branch and the modelled
division-by-zero panic. -/
theorem C9_allow_total_witness :
    (localAllow 1 1 0 (none : Option RateBucket)).isSome = true ∧
    localAllow 0 1 0 (some ⟨0, 0⟩) = none :=
  ⟨C9_allow_total_iff_rps_positive.1 1 1 0 none (by norm_num),
   C9_allow_total_iff_rps_positive.2 1 0 ⟨0, 0⟩ (by norm_num)⟩

/-- C10: for a key not in the map, the first allow call always allows, and
the bucket is created with tokens = burst − 1 and reported remaining =
burst − 1; for burst = 0 the stored token count is negative. -/
theorem C10_first_call_creates_bucket (rps burst : ℕ) (now : ℚ) :
    localAllow rps burst now none =
      some ⟨true, (burst : ℤ) - 1, ⌊now + 1⌋, ⟨(burst : ℚ) - 1, now⟩⟩ ∧
    (burst = 0 → (burst : ℚ) - 1 < 0) := by
  refine ⟨localAllow_none_eq rps burst now, fun h => ?_⟩
  subst h
  norm_num

/-- C10 witness: with burst = 0 at t = 0 the first call is allowed with
remaining −1 and the stored token count −1 < 0. -/
theorem C10_first_call_witness :
    localAllow 1 0 0 none =
      some ⟨true, ((0 : ℕ) : ℤ) - 1, ⌊(0 : ℚ) + 1⌋,
        ⟨((0 : ℕ) : ℚ) - 1, 0⟩⟩ ∧
    ((0 : ℕ) : ℚ) - 1 < 0 :=
  ⟨(C10_first_call_creates_bucket 1 0 0).1,
   (C10_first_call_creates_bucket 1 0 0).2 rfl⟩

/-- C4 counterexample: on an allowed call with four tokens left, a token is
already available at the call instant (epoch second 0), but the
X-RateLimit-Reset header value is 1 — the code reports `now + 1s` rather
than the instant at which one more token will be available. -/
theorem C4_reset_counterexample :
    localAllow 1 5 0 (some ⟨5, 0⟩) = some ⟨true, 4, 1, ⟨4, 0⟩⟩ ∧
    tokenAvailableAt ⟨4, 0⟩ 1 5 0 ∧
    (⌊(0 : ℚ)⌋ : ℤ) ≠ 1 := by
  refine ⟨?_, ?_, by norm_num⟩
  · simp only [localAllow]
    norm_num [goTrunc]
  · unfold tokenAvailableAt
    norm_num

/-- C4 (amended): with rps ≥ 1, burst ≥ 1 and a well-formed bucket state,
the middleware always returns (allowed or denied) with the three headers
X-RateLimit-Limit = rps, X-RateLimit-Remaining = ⌊tokens after the call⌋,
and X-RateLimit-Reset = epoch-seconds of now + 1 s on allowed calls and of
now + (1 s / rps) (integer nanosecond division) on denied calls. -/
theorem C4_rate_limit_headers (rps burst : ℕ) (now : ℚ)
    (bucket? : Option RateBucket)
    (hrps : 1 ≤ rps) (hb : 1 ≤ burst)
    (hwf : ∀ bk, bucket? = some bk →
      0 ≤ bk.tokens ∧ bk.tokens ≤ (burst : ℚ) ∧ bk.lastCheck ≤ now) :
    ∃ out, localAllow rps burst now bucket? = some out ∧
      rateLimitMiddleware rps burst now bucket? =
        some (⟨rps, out.remaining, out.reset⟩,
          if out.allowed then RLOutcome.next
          else RLOutcome.deny 429 "rate_limit_exceeded" (out.reset - ⌊now⌋),
          out.bucket) ∧
      out.remaining = ⌊out.bucket.tokens⌋ ∧
      out.reset =
        (if out.allowed then ⌊now + 1⌋
         else ⌊now + ((nanosPerSec / rps : ℕ) : ℚ) / (nanosPerSec : ℚ)⌋) := by
  cases bucket? with
  | none =>
      refine ⟨⟨true, (burst : ℤ) - 1, ⌊now + 1⌋, ⟨(burst : ℚ) - 1, now⟩⟩,
        localAllow_none_eq rps burst now, ?_, ?_, rfl⟩
      · rw [rateLimitMiddleware, localAllow_none_eq, Option.map_some']
      · show (burst : ℤ) - 1 = ⌊(burst : ℚ) - 1⌋
        have hcast : ((burst : ℚ) - 1) = (((burst : ℤ) - 1 : ℤ) : ℚ) := by
          push_cast
          ring
        rw [hcast, Int.floor_intCast]
  | some bk =>
      rcases hwf bk rfl with ⟨i0, i1, i2⟩
      simp only [localAllow]
      set tk := min ((burst : ℚ)) (bk.tokens + (now - bk.lastCheck) * (rps : ℚ))
        with htk
      have htk0 : 0 ≤ tk := by
        apply le_min (Nat.cast_nonneg burst)
        have : (0 : ℚ) ≤ (now - bk.lastCheck) * (rps : ℚ) :=
          mul_nonneg (by linarith) (Nat.cast_nonneg rps)
        linarith
      by_cases hge : (1 : ℚ) ≤ tk
      · rw [if_pos hge]
        refine ⟨⟨true, goTrunc (tk - 1), ⌊now + 1⌋, ⟨tk - 1, now⟩⟩, rfl, ?_,
          ?_, rfl⟩
        · rw [rateLimitMiddleware]
          have hla : localAllow rps burst now (some bk) =
              some ⟨true, goTrunc (tk - 1), ⌊now + 1⌋, ⟨tk - 1, now⟩⟩ := by
            simp only [localAllow]
            rw [← htk, if_pos hge]
          rw [hla, Option.map_some']
        · show goTrunc (tk - 1) = ⌊tk - 1⌋
          rw [goTrunc, if_neg (by linarith : ¬ (tk - 1 < 0))]
      · rw [if_neg hge, if_neg (by omega : ¬ rps = 0)]
        refine ⟨⟨false, 0,
          ⌊now + ((nanosPerSec / rps : ℕ) : ℚ) / (nanosPerSec : ℚ)⌋,
          ⟨tk, now⟩⟩, rfl, ?_, ?_, rfl⟩
        · rw [rateLimitMiddleware]
          have hla : localAllow rps burst now (some bk) =
              some ⟨false, 0,
                ⌊now + ((nanosPerSec / rps : ℕ) : ℚ) / (nanosPerSec : ℚ)⌋,
                ⟨tk, now⟩⟩ := by
            simp only [localAllow]
            rw [← htk, if_neg hge, if_neg (by omega : ¬ rps = 0)]
          rw [hla, Option.map_some']
        · show (0 : ℤ) = ⌊tk⌋
          rw [eq_comm, Int.floor_eq_zero_iff]
          exact ⟨htk0, by linarith [not_le.mp hge]⟩

/-- C4 witness: rps = 1, burst = 5, first call on a fresh key — the
middleware result carries the three headers and the floor property. -/
theorem C4_rate_limit_headers_witness :
    ∃ out, localAllow 1 5 0 (none : Option RateBucket) = some out ∧
      rateLimitMiddleware 1 5 0 none =
        some (⟨1, out.remaining, out.reset⟩,
          if out.allowed then RLOutcome.next
          else RLOutcome.deny 429 "rate_limit_exceeded"
            (out.reset - ⌊(0 : ℚ)⌋),
          out.bucket) ∧
      out.remaining = ⌊out.bucket.tokens⌋ ∧
      out.reset =
        (if out.allowed then ⌊(0 : ℚ) + 1⌋
         else ⌊(0 : ℚ) + ((nanosPerSec / 1 : ℕ) : ℚ) / (nanosPerSec : ℚ)⌋) :=
  C4_rate_limit_headers 1 5 0 none (by norm_num) (by norm_num)
    (fun _ h => Option.noConfusion h)

lemma strHasPfx_append (p t : String) : strHasPfx p (p ++ t) = true := by
  rw [strHasPfx, String.data_append, List.isPrefixOf_iff_prefix]
  exact p.data.prefix_append t.data

lemma trimPfx_append (p t : String) : trimPfx (p ++ t) p = t := by
  rw [trimPfx, if_pos (strHasPfx_append p t), String.data_append]
  show String.mk ((p.data ++ t.data).drop p.data.length) = t
  rw [List.drop_left]

lemma ne_bearer_append (t : String) : t ≠ "Bearer " ++ t := by
  intro h
  have hlen := congrArg String.length h
  rw [String.length_append] at hlen
  have h7 : "Bearer ".length = 7 := by decide
  omega

lemma bearer_append_ne_empty (t : String) : "Bearer " ++ t ≠ "" := by
  intro h
  have hlen := congrArg String.length h
  rw [String.length_append] at hlen
  have h7 : "Bearer ".length = 7 := by decide
  have h0 : String.length "" = 0 := by decide
  omega

/-- C8: for a request whose path has no configured skip prefix and whose
route is not public, the authenticator returns 401 (error kind unauthorized)
when the Authorization header is missing, when it does not start with the
"Bearer " prefix, or when the token's expiry time is not after the current
time; a request satisfying none of those conditions with a validly signed
token passes with the claims placed on the context. -/
theorem C8_auth_bearer_checks (cfg : AuthCfgModel) (decode : String → Token)
    (now : ℚ) (path method : String) (isPublicLocal : Option Bool)
    (authHeaderVal : String) (baseHeaders : Headers)
    (hskip : ∀ p ∈ cfg.skipPfxs, strHasPfx p path = false)
    (hpubLocal : isPublicLocal.getD false = false)
    (hpubPaths : ∀ ms, cfg.publicPaths.lookup path = some ms →
      ∀ m ∈ ms, eqFold m method = false) :
    (authHeaderVal = "" →
      authMiddleware cfg decode now path method isPublicLocal authHeaderVal
          baseHeaders = .unauthorized "Missing authorization header") ∧
    (authHeaderVal ≠ "" → strHasPfx "Bearer " authHeaderVal = false →
      authMiddleware cfg decode now path method isPublicLocal authHeaderVal
          baseHeaders = .unauthorized "Invalid authorization format") ∧
    (∀ t e, authHeaderVal = "Bearer " ++ t →
      (decode t).claims.expiresAt = some e → e ≤ now →
      authMiddleware cfg decode now path method isPublicLocal authHeaderVal
          baseHeaders = .unauthorized "Invalid token") ∧
    (∀ t, authHeaderVal = "Bearer " ++ t → (decode t).sigValid = true →
      (∀ e, (decode t).claims.expiresAt = some e → now < e) →
      ∃ hs, authMiddleware cfg decode now path method isPublicLocal
          authHeaderVal baseHeaders = .passAuthed (decode t).claims hs) := by
  have hskip' : cfg.skipPfxs.any (fun p => strHasPfx p path) = false := by
    rw [List.any_eq_false]
    intro p hp
    simp [hskip p hp]
  have hpub' : (match cfg.publicPaths.lookup path with
      | some methods => methods.any (fun m => eqFold m method)
      | none => false) = false := by
    cases hlk : cfg.publicPaths.lookup path with
    | none => rfl
    | some ms =>
        simp only
        rw [List.any_eq_false]
        intro m hm
        simp [hpubPaths ms hlk m hm]
  have hmw : authMiddleware cfg decode now path method isPublicLocal
      authHeaderVal baseHeaders =
      (if authHeaderVal = "" then
        AuthOutcome.unauthorized "Missing authorization header"
      else
        let tokenString := trimPfx authHeaderVal "Bearer "
        if tokenString = authHeaderVal then
          AuthOutcome.unauthorized "Invalid authorization format"
        else
          match validateToken decode now tokenString with
          | none => AuthOutcome.unauthorized "Invalid token"
          | some claims =>
              let h1 := setHeader baseHeaders "X-User-ID" claims.userID
              let h2 := setHeader h1 "X-Tenant-ID" claims.tenantID
              let h3 := setHeader h2 "X-User-Email" claims.email
              let h4 :=
                if claims.roles.length > 0 then
                  setHeader h3 "X-User-Roles" (joinComma claims.roles)
                else h3
              AuthOutcome.passAuthed claims h4) := by
    rw [authMiddleware, hskip', hpubLocal, hpub']
    simp only [Bool.false_eq_true, if_false]
  refine ⟨?_, ?_, ?_, ?_⟩
  · intro h
    rw [hmw, if_pos h]
  · intro hne hnp
    have htrim : trimPfx authHeaderVal "Bearer " = authHeaderVal := by
      rw [trimPfx, hnp]
      simp
    rw [hmw, if_neg hne]
    simp [htrim]
  · intro t e hdr hexp hle
    subst hdr
    have hd : decide (now < e) = false := decide_eq_false (not_lt.mpr hle)
    have hval : validateToken decode now t = none := by
      rw [validateToken, jwtParse]
      simp only [hexp, hd, Bool.and_false, Bool.false_eq_true, if_false]
    rw [hmw, if_neg (bearer_append_ne_empty t)]
    simp only [trimPfx_append, if_neg (ne_bearer_append t), hval]
  · intro t hdr hsig hnow
    subst hdr
    have hval : validateToken decode now t = some (decode t).claims := by
      cases hexp : (decode t).claims.expiresAt with
      | none => simp [validateToken, jwtParse, hsig, hexp]
      | some e =>
          have hlt := hnow e hexp
          have hnl : ¬ e < now := not_lt.mpr (le_of_lt hlt)
          simp [validateToken, jwtParse, hsig, hexp, hlt, hnl]
    rw [hmw, if_neg (bearer_append_ne_empty t)]
    simp only [trimPfx_append, if_neg (ne_bearer_append t), hval]
    exact ⟨_, rfl⟩

/-- C8 witness: a non-skip, non-public request with no Authorization header
is rejected with 401 unauthorized. -/
theorem C8_auth_bearer_checks_witness :
    authMiddleware ⟨["/health", "/ready", "/live", "/metrics"], []⟩
        (fun _ => ⟨true, ⟨"u1", "t1", "u@example.com", ["admin"], some 100⟩⟩)
        0 "/api/v1/users" "GET" none "" [] =
      .unauthorized "Missing authorization header" :=
  (C8_auth_bearer_checks ⟨["/health", "/ready", "/live", "/metrics"], []⟩
      (fun _ => ⟨true, ⟨"u1", "t1", "u@example.com", ["admin"], some 100⟩⟩)
      0 "/api/v1/users" "GET" none "" []
      (by decide) rfl (fun ms h => Option.noConfusion h)).1 rfl

end Gateway

